import Mathlib

/-!
Shallow embedding of the auto-renewal engine of the certple-enhanced
repository: the certificate scanner (CertificateScanner.js), the renewal
policy store (ConfigManager.js), the bounded history log (HistoryManager.js),
the ACME renewal orchestrator (ACMEClient.js) and the renewal scheduler
(RenewalScheduler.js).

Modelling conventions:
- Browser local storage is a single record (Env) holding the parsed JSON
  documents under each storage key; a missing or unparseable document is
  None, matching the code paths that fall back to defaults on absence or
  JSON errors.
- JS timestamps are epoch milliseconds as Int. A value fed to new Date(v)
  either parses to a definite instant (TimeVal.valid ms) or yields an
  Invalid Date, i.e. NaN (TimeVal.malformed s); arithmetic on NaN stays NaN
  and every comparison with NaN is false, which the definitions below
  reproduce by matching on the Option returned by TimeVal.toMs.
- JS falsiness of strings (empty string and null are falsy) is modelled by
  strTruthy over Option String.
- Async steps of the external ACME engine (window.ACME) are modelled as an
  oracle structure AcmeEngine recording the outcome of each step.
-/

namespace Certple

/-- Milliseconds in one day, as used by getDaysUntilExpiry
(1000 * 60 * 60 * 24). -/
def msPerDay : Int := 1000 * 60 * 60 * 24

/-- A JS value used as a date: either it parses to a definite
epoch-millisecond instant, or it is present but unparseable, in which case
new Date(v) is an Invalid Date whose getTime() is NaN. -/
inductive TimeVal where
  | valid (ms : Int)
  | malformed (s : String)
deriving DecidableEq, Repr

/-- getTime() of the parsed date: some epoch milliseconds, or none for NaN. -/
def TimeVal.toMs : TimeVal → Option Int
  | .valid ms => some ms
  | .malformed _ => none

/-- JS truthiness of a time field before date parsing: the number 0 and the
empty string are falsy, every other present value is truthy. -/
def TimeVal.truthy : TimeVal → Bool
  | .valid ms => ms != 0
  | .malformed s => s != ""

/-- JS truthiness of a nullable string (localStorage.getItem result or an
optional field): null and the empty string are falsy. -/
def strTruthy : Option String → Bool
  | none => false
  | some s => s != ""

/-- JS s1 || s2 for a nullable string field with a string default. -/
def strOr (s : Option String) (d : String) : String :=
  match s with
  | some s => if s != "" then s else d
  | none => d

/-- JS v || null for a nullable numeric field: 0, null and absence all
collapse to null. -/
def intOrNull (v : Option Int) : Option Int :=
  match v with
  | some v => if v != 0 then some v else none
  | none => none

/-- Index-aware map used to model Array.prototype.map((cert, index) => ...)
and the per-index rewrite in updateCertificate. -/
def mapWithIndex (f : Nat → α → β) : Nat → List α → List β
  | _, [] => []
  | i, x :: xs => f i x :: mapWithIndex f (i + 1) xs

/-! ## Data stored under the storage keys -/

/-- A raw certificate record as persisted under the q-manageDataPairs key.
Each schema field is optional (absent or null in the JSON document);
extra holds any fields outside the schema that CertificateScanner
normalization knows about (for example renewalUrl or lastRenewalSuccess
written by the scheduler), with their values kept as opaque rendered
strings since only the presence of such fields matters here. -/
structure RawCert where
  id : Option Nat := none
  domains : Option String := none
  cert : Option String := none
  key : Option String := none
  time : Option TimeVal := none
  autoRenewal : Option Bool := none
  renewalStatus : Option String := none
  lastRenewalAttempt : Option Int := none
  extra : List (String × String) := []
deriving DecidableEq, Repr

/-- A normalized certificate record as returned by
CertificateScanner.scanCertificates. -/
structure ScanCert where
  id : Nat
  domains : String
  cert : String
  key : String
  time : TimeVal
  autoRenewal : Bool
  renewalStatus : String
  lastRenewalAttempt : Option Int
deriving DecidableEq, Repr

/-- A certificate entry under the q-certs key, which only
ACMEClient.storeCertificate reads and writes. -/
structure QCert where
  domains : String
  cert : String
  key : String
  time : TimeVal
  renewalStatus : Option String := none
  lastRenewalSuccess : Option Int := none
  autoRenewed : Option Bool := none
deriving DecidableEq, Repr

/-- A renewal history record as created by HistoryManager.recordRenewal. -/
structure HistRecord where
  id : String
  domain : String
  timestamp : Int
  status : String
  error : Option String
  oldExpiry : Option Int
  newExpiry : Option Int
deriving DecidableEq, Repr

/-- A per-certificate entry of the certSettings map of the persisted
auto-renewal configuration. -/
structure CertSetting where
  enabled : Option Bool := none
  lastCheck : Option Int := none
  lastRenewal : Option Int := none
deriving DecidableEq, Repr

/-- The persisted auto-renewal configuration document, each field optional;
getAutoRenewalConfig merges it over the defaults by spread. -/
structure RawConfig where
  enabled : Option Bool := none
  threshold : Option Int := none
  checkInterval : Option Int := none
  certSettings : Option (List (String × CertSetting)) := none
deriving DecidableEq, Repr

/-- The merged auto-renewal configuration as returned by
ConfigManager.getAutoRenewalConfig. -/
structure AutoRenewalConfig where
  enabled : Bool
  threshold : Int
  checkInterval : Int
  certSettings : List (String × CertSetting)
deriving DecidableEq, Repr

/-- The browser localStorage, one field per storage key used by the renewal
engine. None models an absent or unparseable document. -/
structure Env where
  acmeAccountKey : Option String := none
  email : Option String := none
  acmeURL : Option String := none
  qCerts : Option (List QCert) := none
  manageCerts : Option (List RawCert) := none
  history : Option (List HistRecord) := none
  config : Option RawConfig := none
deriving DecidableEq, Repr

/-! ## CertificateScanner -/

/-- Normalization of the time field: cert.time || new Date().toISOString(),
where the default ISO string parses back to the current instant. -/
def normTime (t : Option TimeVal) (now : Int) : TimeVal :=
  match t with
  | some tv => if tv.truthy then tv else .valid now
  | none => .valid now

/-- The per-record normalization applied by scanCertificates: fixed schema,
defaults for missing fields, id set to the array index, unknown fields
dropped. -/
def normalizeCert (now : Int) (index : Nat) (c : RawCert) : ScanCert :=
  { id := index
    domains := strOr c.domains ""
    cert := strOr c.cert ""
    key := strOr c.key ""
    time := normTime c.time now
    autoRenewal := c.autoRenewal.getD true
    renewalStatus := strOr c.renewalStatus "idle"
    lastRenewalAttempt := intOrNull c.lastRenewalAttempt }

/-- CertificateScanner.scanCertificates: read q-manageDataPairs, return []
when absent or unparseable, otherwise map every entry through the fixed
normalization schema. -/
def scanCertificates (env : Env) (now : Int) : List ScanCert :=
  match env.manageCerts with
  | none => []
  | some certificates => mapWithIndex (normalizeCert now) 0 certificates

/-- CertificateScanner.getExpiryDate: issue date plus 90 days of validity.
Arithmetic on an Invalid Date stays invalid. -/
def getExpiryDate (cert : ScanCert) : TimeVal :=
  match cert.time with
  | .valid ms => .valid (ms + 90 * msPerDay)
  | .malformed s => .malformed s

/-- Math.ceil(a / b) for integer epoch differences and a positive integer
divisor, via floor division: ceil(x) = -floor(-x). -/
def jsCeilDiv (a b : Int) : Int := -((-a) / b)

/-- CertificateScanner.getDaysUntilExpiry:
Math.ceil((expiryDate - now) / msPerDay); none models the NaN produced when
the stored time does not parse. -/
def getDaysUntilExpiry (cert : ScanCert) (now : Int) : Option Int :=
  match (getExpiryDate cert).toMs with
  | some expiry => some (jsCeilDiv (expiry - now) msPerDay)
  | none => none

/-- CertificateScanner.getCertificateStatus. In JS every comparison with NaN
is false, so a NaN daysUntilExpiry falls through both branches to valid. -/
def getCertificateStatus (cert : ScanCert) (threshold : Int) (now : Int) : String :=
  match getDaysUntilExpiry cert now with
  | none => "valid"
  | some daysUntilExpiry =>
      if daysUntilExpiry ≤ 0 then "expired"
      else if daysUntilExpiry ≤ threshold then "needs_renewal"
      else "valid"

/-- The partial update object passed to updateCertificate; schema fields
that are absent from the update are none, extra holds update fields outside
the scanner schema (for example lastRenewalSuccess or renewalUrl). -/
structure CertUpdates where
  domains : Option String := none
  cert : Option String := none
  key : Option String := none
  time : Option TimeVal := none
  autoRenewal : Option Bool := none
  renewalStatus : Option String := none
  lastRenewalAttempt : Option Int := none
  extra : List (String × String) := []
deriving DecidableEq, Repr

/-- JS spread merge of an update object over a normalized record:
fields present in the update win. -/
def mergeUpdate (c : ScanCert) (u : CertUpdates) : ScanCert :=
  { id := c.id
    domains := u.domains.getD c.domains
    cert := u.cert.getD c.cert
    key := u.key.getD c.key
    time := u.time.getD c.time
    autoRenewal := u.autoRenewal.getD c.autoRenewal
    renewalStatus := u.renewalStatus.getD c.renewalStatus
    lastRenewalAttempt :=
      match u.lastRenewalAttempt with
      | some v => some v
      | none => c.lastRenewalAttempt }

/-- JSON serialization of a normalized record back into storage: every
schema field is written out (including id), extra carries whatever
non-schema fields the merged update object contributed. -/
def ScanCert.toRaw (c : ScanCert) (extra : List (String × String)) : RawCert :=
  { id := some c.id
    domains := some c.domains
    cert := some c.cert
    key := some c.key
    time := some c.time
    autoRenewal := some c.autoRenewal
    renewalStatus := some c.renewalStatus
    lastRenewalAttempt := c.lastRenewalAttempt
    extra := extra }

/-- CertificateScanner.updateCertificate: re-scan the whole collection
through the normalization schema, merge the updates into the record at the
given index (indices are array positions, so the JS id >= 0 guard is
implicit in Nat), and write the entire normalized collection back. -/
def updateCertificate (env : Env) (now : Int) (id : Nat) (u : CertUpdates) : Env :=
  let certificates := scanCertificates env now
  if id < certificates.length then
    { env with
        manageCerts := some (mapWithIndex
          (fun j c => if j = id then (mergeUpdate c u).toRaw u.extra else c.toRaw [])
          0 certificates) }
  else env

/-! ## ConfigManager -/

/-- ConfigManager.getDefaultConfig. -/
def defaultConfig : AutoRenewalConfig :=
  { enabled := false
    threshold := 30
    checkInterval := 24 * 60 * 60 * 1000
    certSettings := [] }

/-- ConfigManager.getAutoRenewalConfig: defaults when the document is
absent, otherwise a spread merge of the document over the defaults. -/
def getAutoRenewalConfig (env : Env) : AutoRenewalConfig :=
  match env.config with
  | none => defaultConfig
  | some c =>
      { enabled := c.enabled.getD defaultConfig.enabled
        threshold := c.threshold.getD defaultConfig.threshold
        checkInterval := c.checkInterval.getD defaultConfig.checkInterval
        certSettings := c.certSettings.getD defaultConfig.certSettings }

/-- Serialization of a merged configuration back to storage (all fields
present). -/
def AutoRenewalConfig.toRaw (c : AutoRenewalConfig) : RawConfig :=
  { enabled := some c.enabled
    threshold := some c.threshold
    checkInterval := some c.checkInterval
    certSettings := some c.certSettings }

/-- ConfigManager.saveAutoRenewalConfig: reject a threshold outside [1,60]
(the enabled field is Bool by type, so the typeof check always passes);
on rejection the prior document is left untouched and false is returned. -/
def saveAutoRenewalConfig (env : Env) (config : AutoRenewalConfig) : Env × Bool :=
  if config.threshold < 1 ∨ 60 < config.threshold then (env, false)
  else ({ env with config := some config.toRaw }, true)

/-- ConfigManager.isGloballyEnabled. -/
def isGloballyEnabled (env : Env) : Bool :=
  (getAutoRenewalConfig env).enabled == true

/-- Lookup of certSettings[domain] in the object modelled as an association
list. -/
def lookupSetting (l : List (String × CertSetting)) (domain : String) :
    Option CertSetting :=
  (l.find? (fun p => p.1 == domain)).map Prod.snd

/-- Assignment certSettings[domain] = v: replace the entry in place when the
key exists, append it otherwise (JS object property order). -/
def setSetting (l : List (String × CertSetting)) (domain : String)
    (v : CertSetting) : List (String × CertSetting) :=
  if (l.find? (fun p => p.1 == domain)).isSome then
    l.map (fun p => if p.1 == domain then (p.1, v) else p)
  else l ++ [(domain, v)]

/-- ConfigManager.isCertAutoRenewalEnabled: the global switch gates
everything; with it on, only an explicit enabled === false per-certificate
entry disables a domain. -/
def isCertAutoRenewalEnabled (env : Env) (domain : String) : Bool :=
  if !(getAutoRenewalConfig env).enabled then false
  else
    match lookupSetting (getAutoRenewalConfig env).certSettings domain with
    | some certSetting => if certSetting.enabled == some false then false else true
    | none => true

/-- ConfigManager.updateLastCheck: read-merge-write of the configuration
with certSettings[domain].lastCheck set to now (the entry is created as
enabled true when absent). -/
def updateLastCheck (env : Env) (domain : String) (now : Int) : Env :=
  let config := getAutoRenewalConfig env
  let setting :=
    match lookupSetting config.certSettings domain with
    | some s => { s with lastCheck := some now }
    | none => { enabled := some true, lastCheck := some now : CertSetting }
  (saveAutoRenewalConfig env
    { config with certSettings := setSetting config.certSettings domain setting }).1

/-! ## HistoryManager -/

/-- The retention bound MAX_RECORDS. -/
def MAX_RECORDS : Nat := 10

/-- HistoryManager.getHistory: the records array, [] when the document is
absent or malformed. -/
def getHistory (env : Env) : List HistRecord :=
  env.history.getD []

/-- HistoryManager.recordRenewal: build a record (rid models the generated
id, now models Date.now()), add it at the head, truncate to the most recent
MAX_RECORDS, write back. -/
def recordRenewal (env : Env) (domain status : String) (error : Option String)
    (oldExpiry newExpiry : Option Int) (now : Int) (rid : String) : Env :=
  let history := getHistory env
  let record : HistRecord :=
    { id := rid, domain := domain, timestamp := now, status := status
      error := error, oldExpiry := oldExpiry, newExpiry := newExpiry }
  let records := record :: history
  let records := if records.length > MAX_RECORDS then records.take MAX_RECORDS else records
  { env with history := some records }

/-- HistoryManager.getStatistics: one pass over the current records. -/
def getStatistics (env : Env) : Nat × Nat × Nat × Nat :=
  let records := getHistory env
  (records.length,
   (records.filter (fun r => r.status == "success")).length,
   (records.filter (fun r => r.status == "failure")).length,
   (records.filter (fun r => r.status == "in_progress")).length)

/-! ## ACMEClient -/

/-- The external ACME engine (window.ACME together with window.X509),
modelled as an oracle recording the outcome of each asynchronous step of
one renewal attempt: a rejected promise carries the error string that the
client wraps into a thrown message. auths is the per-domain authorization
status map StepData.auths in object-key order; downloadPEM is
StepData.order.downloadPEM after finalization (none models a missing
field). -/
structure AcmeEngine where
  acmeAvailable : Bool := true
  x509Available : Bool := true
  accountKeyParse : Except String Unit := .ok ()
  certKeyParse : Except String Unit := .ok ()
  directory : Except String Unit := .ok ()
  stepAccount : Except String Unit := .ok ()
  stepOrder : Except String Unit := .ok ()
  auths : List (String × String) := []
  stepFinalize : Except String Unit := .ok ()
  downloadPEM : Option String := none
deriving Repr

/-- The per-instance mutable state of ACMEClient (the renewalQueue field is
not touched by any modelled method and is omitted). -/
structure ClientState where
  isRenewing : Bool
deriving DecidableEq, Repr

/-- The new-certificate payload returned on a fully automatic success. -/
structure NewCertInfo where
  domains : String
  cert : String
  key : String
  time : Int
deriving DecidableEq, Repr

/-- The result object of ACMEClient.renewCertificate; absent JS fields are
none, [] or false. -/
structure RenewalOutcome where
  success : Bool
  requiresManual : Bool
  message : Option String := none
  inProgress : Bool := false
  authorizationsNeeded : List String := []
  renewalUrl : Option String := none
  hint : Option String := none
  error : Option String := none
  certificate : Option NewCertInfo := none
deriving DecidableEq, Repr

/-- One completed call of ACMEClient.renewCertificate: its returned result,
the client state and storage afterwards, and whether the finalize step of
the engine was invoked. -/
structure RenewRun where
  result : RenewalOutcome
  state : ClientState
  env : Env
  finalizeCalled : Bool
deriving DecidableEq, Repr

/-- ACMEClient.checkRenewalCapability. -/
structure Capability where
  hasAccount : Bool
  hasEmail : Bool
  canAutoRenew : Bool
  message : String
deriving DecidableEq, Repr

/-- ACMEClient.checkRenewalCapability: account key and email must both be
present in storage. -/
def checkRenewalCapability (env : Env) : Capability :=
  let acmeAccountKey := env.acmeAccountKey
  let userEmail := env.email
  { hasAccount := strTruthy acmeAccountKey
    hasEmail := strTruthy userEmail
    canAutoRenew := strTruthy acmeAccountKey && strTruthy userEmail
    message :=
      if !strTruthy acmeAccountKey then
        "ACME account key not configured. Please complete initial certificate setup first."
      else if !strTruthy userEmail then
        "Email not configured. Please complete initial certificate setup first."
      else "Ready for renewal" }

/-- ACMEClient.validateCertificate result. -/
structure Validation where
  valid : Bool
  errors : List String
deriving DecidableEq, Repr

/-- ACMEClient.validateCertificate: the domains, cert, key and time fields
of the record must all be truthy. -/
def validateCertificate (certificate : ScanCert) : Validation :=
  let errors : List String :=
    (if certificate.domains == "" then ["Missing domains"] else [])
    ++ (if certificate.cert == "" then ["Missing certificate data"] else [])
    ++ (if certificate.key == "" then ["Missing private key"] else [])
    ++ (if !certificate.time.truthy then ["Missing certificate timestamp"] else [])
  { valid := errors.length == 0, errors := errors }

/-- The configuration assembled by ACMEClient.loadConfiguration. The
privateKey and accountKey objects are represented by their PEM strings. -/
structure LoadedConfig where
  domains : List String
  privateKeyPem : String
  email : String
  acmeURL : String
deriving DecidableEq, Repr

/-- ACMEClient.loadConfiguration: the account key and email must be in
storage, both PEM keys must parse, and the domains field is split on commas
and trimmed (the records handed to the client come from the scanner, whose
domains field is always a string, so the array branch of the source is not
exercised). Throws are modelled as Except.error of the thrown message. -/
def loadConfiguration (env : Env) (certificate : ScanCert) (eng : AcmeEngine) :
    Except String LoadedConfig :=
  if !strTruthy env.acmeAccountKey then
    .error "ACME account key not found. Please complete initial certificate setup."
  else if !strTruthy env.email then
    .error "Email not configured. Please complete initial certificate setup."
  else
    match eng.accountKeyParse with
    | .error e => .error e
    | .ok _ =>
      if certificate.key != "" then
        match eng.certKeyParse with
        | .error e => .error e
        | .ok _ =>
          .ok { domains := (certificate.domains.splitOn ",").map (fun d => d.trim)
                privateKeyPem := certificate.key
                email := (env.email).getD ""
                acmeURL := strOr env.acmeURL "https://acme-v02.api.letsencrypt.org/directory" }
      else
        .error "Certificate private key not found"

/-- ACMEClient.checkAuthorizationStatus: a domain is pending when its
authorization status differs from valid; the loop accumulates the pending
domains in iteration order, which equals filter followed by map. -/
structure AuthStatus where
  allValid : Bool
  pendingDomains : List String
deriving DecidableEq, Repr

/-- ACMEClient.checkAuthorizationStatus over the auths map. -/
def checkAuthorizationStatus (auths : List (String × String)) : AuthStatus :=
  { allValid := auths.all (fun p => p.2 == "valid")
    pendingDomains := (auths.filter (fun p => p.2 != "valid")).map Prod.fst }

/-- encodeURIComponent, modelled as the identity on strings: percent
escaping is a character-level encoding no verified property depends on. -/
def encodeURIComponent (s : String) : String := s

/-- The manual renewal URL built for manual-required outcomes. -/
def renewalUrlFor (certificate : ScanCert) : String :=
  "/?autoRenew=1&domain=" ++ encodeURIComponent certificate.domains

/-- JS String.prototype.includes, via splitOn: the pattern occurs iff the
split produces more than one part. -/
def containsSub (s pat : String) : Bool := (s.splitOn pat).length > 1

/-- The error-text classification of the inner catch of renewCertificate. -/
def isAuthError (msg : String) : Bool :=
  containsSub msg "authorization" || containsSub msg "pending" || containsSub msg "invalid"

/-- ACMEClient.storeCertificate inner update: findIndex on matching domains
or matching time, then replace that entry with the renewed data; none when
no entry matches (the thrown case). -/
def storeUpdate (oldCert : ScanCert) (newCertPEM privateKeyPEM : String)
    (now : Int) : List QCert → Option (List QCert)
  | [] => none
  | c :: rest =>
    if c.domains == oldCert.domains || c.time == oldCert.time then
      some ({ c with
                cert := newCertPEM
                key := privateKeyPEM
                time := .valid now
                renewalStatus := some "success"
                lastRenewalSuccess := some now
                autoRenewed := some true } :: rest)
    else
      match storeUpdate oldCert newCertPEM privateKeyPEM now rest with
      | some rest' => some (c :: rest')
      | none => none

/-- ACMEClient.storeCertificate: throws when the q-certs document is absent
or no entry matches the old certificate, otherwise writes the updated
collection back. -/
def storeCertificate (env : Env) (oldCert : ScanCert)
    (newCertPEM privateKeyPEM : String) (now : Int) : Except String Env :=
  match env.qCerts with
  | none => .error "Certificate storage not found"
  | some certs =>
    match storeUpdate oldCert newCertPEM privateKeyPEM now certs with
    | none => .error "Original certificate not found in storage"
    | some certs' => .ok { env with qCerts := some certs' }

/-- The body of the inner try of renewCertificate (steps 1 through 8): the
first component is the returned outcome or the thrown message, the second
is the storage afterwards, the third records whether StepFinalizeOrder was
invoked. -/
def renewAttempt (env : Env) (eng : AcmeEngine) (certificate : ScanCert)
    (now : Int) : Except String RenewalOutcome × Env × Bool :=
  if !eng.acmeAvailable then
    (.error "ACME client not available. Please ensure core.js is loaded.", env, false)
  else if !eng.x509Available then
    (.error "X509 utilities not available. Please ensure core.js is loaded.", env, false)
  else
    match loadConfiguration env certificate eng with
    | .error e => (.error e, env, false)
    | .ok config =>
      match eng.directory with
      | .error e => (.error ("Failed to load ACME directory: " ++ e), env, false)
      | .ok _ =>
        match eng.stepAccount with
        | .error e => (.error ("ACME account error: " ++ e), env, false)
        | .ok _ =>
          match eng.stepOrder with
          | .error e => (.error ("Order creation failed: " ++ e), env, false)
          | .ok _ =>
            if !(checkAuthorizationStatus eng.auths).allValid then
              (.ok { success := false
                     requiresManual := true
                     message := some "Authorization cache expired (>30 days since last validation). Manual domain verification required."
                     authorizationsNeeded := (checkAuthorizationStatus eng.auths).pendingDomains
                     renewalUrl := some (renewalUrlFor certificate)
                     hint := some "Please complete domain verification through the web interface, or wait until within 30 days of last validation." },
               env, false)
            else
              match eng.stepFinalize with
              | .error e => (.error ("Order finalization failed: " ++ e), env, true)
              | .ok _ =>
                if !strTruthy eng.downloadPEM then
                  (.error "Certificate download failed - no PEM data", env, true)
                else
                  match storeCertificate env certificate (eng.downloadPEM.getD "")
                      config.privateKeyPem now with
                  | .error e => (.error e, env, true)
                  | .ok env' =>
                    (.ok { success := true
                           requiresManual := false
                           message := some "Certificate renewed automatically using cached authorizations"
                           certificate := some { domains := certificate.domains
                                                 cert := eng.downloadPEM.getD ""
                                                 key := config.privateKeyPem
                                                 time := now } },
                     env', true)

/-- ACMEClient.renewCertificate: capability check and certificate
validation (their throws land in the outer catch), the re-entrancy guard,
then the inner try with its catch that reclassifies authorization-flavoured
error texts as manual-required, the outer catch for every other throw, and
the finally clause that unconditionally clears the isRenewing flag on every
path. -/
def renewCertificate (env : Env) (st : ClientState) (eng : AcmeEngine)
    (certificate : ScanCert) (now : Int) : RenewRun :=
  if !(checkRenewalCapability env).canAutoRenew then
    { result := { success := false, requiresManual := true
                  error := some (checkRenewalCapability env).message }
      state := { isRenewing := false }, env := env, finalizeCalled := false }
  else
    if !(validateCertificate certificate).valid then
      { result := { success := false, requiresManual := true
                    error := some ("Invalid certificate: "
                      ++ String.intercalate ", " (validateCertificate certificate).errors) }
        state := { isRenewing := false }, env := env, finalizeCalled := false }
    else if st.isRenewing then
      { result := { success := false, requiresManual := false
                    message := some "Renewal already in progress", inProgress := true }
        state := { isRenewing := false }, env := env, finalizeCalled := false }
    else
      match renewAttempt env eng certificate now with
      | (.ok outcome, env', fc) =>
        { result := outcome, state := { isRenewing := false }, env := env', finalizeCalled := fc }
      | (.error msg, env', fc) =>
        if isAuthError msg then
          { result := { success := false, requiresManual := true
                        message := some "Authorization verification required. Authorizations may have expired."
                        error := some msg
                        renewalUrl := some (renewalUrlFor certificate) }
            state := { isRenewing := false }, env := env', finalizeCalled := fc }
        else
          { result := { success := false, requiresManual := true, error := some msg }
            state := { isRenewing := false }, env := env', finalizeCalled := fc }

/-! ## RenewalScheduler -/

/-- The process-wide state the scheduler threads through one renewal job:
the storage, the ACME client instance state, the set of domains already
notified of upcoming expiry, and the transcript of notifier calls
(domain, message). -/
structure World where
  env : Env
  acme : ClientState
  notifiedDomains : List String := []
  notifications : List (String × String) := []
deriving DecidableEq, Repr

/-- The observable outcome of one executeRenewalJob call: the world
afterwards, the terminal job status, the recorded job error, and the result
the orchestrator returned. -/
structure JobResult where
  world : World
  jobStatus : String
  jobError : Option String
  result : RenewalOutcome
deriving DecidableEq, Repr

/-- JS template interpolation of a possibly undefined string. -/
def jsInterp : Option String → String
  | some s => s
  | none => "undefined"

/-- Storage after the pre-attempt bookkeeping of executeRenewalJob: the
store record at the job index is marked in_progress with
lastRenewalAttempt = now, then the in_progress history record is
appended. -/
def jobStartEnv (w : World) (cert : ScanCert) (now : Int) (rid1 : String) : Env :=
  recordRenewal
    (updateCertificate w.env now cert.id
      { renewalStatus := some "in_progress", lastRenewalAttempt := some now })
    cert.domains "in_progress" none ((getExpiryDate cert).toMs) none now rid1

/-- The outcome branch of executeRenewalJob over the returned run: success
updates the record to renewalStatus success with the non-schema field
lastRenewalSuccess and clears the notified-set entry; requiresManual
updates it to manual_required with the non-schema field renewalUrl,
appends a manual_required history record and notifies; every other result,
including the inProgress guard outcome, takes the failure branch with
errorMsg = run.result.error || "Unknown error occurred". The trailing
updateLastCheck runs in every branch. -/
def jobFinish (w : World) (cert : ScanCert) (now : Int) (rid2 : String)
    (run : RenewRun) : JobResult :=
  if run.result.success then
    { world :=
        { env := updateLastCheck
            (recordRenewal
              (updateCertificate run.env now cert.id
                { renewalStatus := some "success"
                  extra := [("lastRenewalSuccess", toString now)] })
              cert.domains "success" none ((getExpiryDate cert).toMs) none now rid2)
            cert.domains now
          acme := run.state
          notifiedDomains := w.notifiedDomains.filter (fun d => d ≠ cert.domains)
          notifications := w.notifications }
      jobStatus := "completed", jobError := none, result := run.result }
  else if run.result.requiresManual then
    { world :=
        { env := updateLastCheck
            (recordRenewal
              (updateCertificate run.env now cert.id
                { renewalStatus := some "manual_required"
                  extra := match run.result.renewalUrl with
                           | some u => [("renewalUrl", u)]
                           | none => [] })
              cert.domains "manual_required" run.result.message
              ((getExpiryDate cert).toMs) none now rid2)
            cert.domains now
          acme := run.state
          notifiedDomains := w.notifiedDomains
          notifications := w.notifications ++
            [(cert.domains,
              "Manual renewal required: " ++ jsInterp run.result.message
                ++ "\nPlease visit: " ++ jsInterp run.result.renewalUrl)] }
      jobStatus := "manual_required", jobError := run.result.message
      result := run.result }
  else
    { world :=
        { env := updateLastCheck
            (recordRenewal
              (updateCertificate run.env now cert.id { renewalStatus := some "failure" })
              cert.domains "failure"
              (some (strOr run.result.error "Unknown error occurred"))
              ((getExpiryDate cert).toMs) none now rid2)
            cert.domains now
          acme := run.state
          notifiedDomains := w.notifiedDomains
          notifications := w.notifications
            ++ [(cert.domains, strOr run.result.error "Unknown error occurred")] }
      jobStatus := "failure"
      jobError := some (strOr run.result.error "Unknown error occurred")
      result := run.result }

/-- RenewalScheduler.executeRenewalJob: mark the store record in_progress,
append the in_progress history record, run the orchestrator on the
resulting storage, then branch on the result via jobFinish. now models all
Date.now() reads of the call, rid1 and rid2 the two generated history
ids. -/
def executeRenewalJob (w : World) (eng : AcmeEngine) (cert : ScanCert)
    (now : Int) (rid1 rid2 : String) : JobResult :=
  jobFinish w cert now rid2
    (renewCertificate (jobStartEnv w cert now rid1) w.acme eng cert now)

/-! ## Concrete fixtures used by witnesses and counterexamples -/

/-- A stored record with the usual fields present. -/
def rawW : RawCert :=
  { domains := some "example.com", cert := some "OLDPEM"
    key := some "OLDKEY", time := some (.valid 1000) }

/-- A stored record carrying two fields outside the scanner schema. -/
def rawX : RawCert :=
  { rawW with extra := [("renewalUrl", "/u"), ("lastRenewalSuccess", "5")] }

/-- A fully configured storage: account key and email present, one
certificate in the scanner store and a matching entry in the q-certs store,
renewal globally enabled. -/
def envW : Env :=
  { acmeAccountKey := some "AK", email := some "a@b.c"
    qCerts := some [{ domains := "example.com", cert := "OLDPEM"
                      key := "OLDKEY", time := .valid 1000 }]
    manageCerts := some [rawW]
    history := some []
    config := some { enabled := some true, threshold := some 30 } }

/-- The scanner view of rawW at index 0. -/
def certW : ScanCert :=
  { id := 0, domains := "example.com", cert := "OLDPEM", key := "OLDKEY"
    time := .valid 1000, autoRenewal := true, renewalStatus := "idle"
    lastRenewalAttempt := none }

/-- A record whose time field is present but unparseable. -/
def certMal : ScanCert :=
  { certW with time := .malformed "not-a-date" }

/-- An engine on which every step succeeds and the single authorization is
cached. -/
def engOK : AcmeEngine :=
  { auths := [("example.com", "valid")], downloadPEM := some "NEWPEM" }

/-- An engine on which every step succeeds but one authorization is still
pending. -/
def engPend : AcmeEngine :=
  { auths := [("example.com", "pending"), ("b.example", "valid")]
    downloadPEM := some "NEWPEM" }

/-- A storage with extra fields on record 0. -/
def envX : Env := { envW with manageCerts := some [rawX, rawW] }

/-- A world whose ACME client is already renewing. -/
def wC5 : World := { env := envW, acme := { isRenewing := true } }

/-- An idle world over the same storage. -/
def wC2 : World := { env := envW, acme := { isRenewing := false } }

/-- A policy with the global switch on and one explicitly disabled
domain. -/
def envC8 : Env :=
  { config := some { enabled := some true
                     certSettings := some [("off.example", { enabled := some false })] } }

/-- The arguments of one recordRenewal call (now models Date.now(), rid the
generated record id). -/
structure RecordCall where
  domain : String
  status : String
  error : Option String
  oldExpiry : Option Int
  newExpiry : Option Int
  now : Int
  rid : String
deriving DecidableEq, Repr

/-- Folding step: perform one recordRenewal call. -/
def recordStep (env : Env) (c : RecordCall) : Env :=
  recordRenewal env c.domain c.status c.error c.oldExpiry c.newExpiry c.now c.rid

/-- The history record a call creates. -/
def mkHistRecord (c : RecordCall) : HistRecord :=
  { id := c.rid, domain := c.domain, timestamp := c.now, status := c.status
    error := c.error, oldExpiry := c.oldExpiry, newExpiry := c.newExpiry }

/-! ## Helper lemmas -/

theorem length_mapWithIndex (f : Nat → α → β) (s : Nat) (l : List α) :
    (mapWithIndex f s l).length = l.length := by
  induction l generalizing s with
  | nil => rfl
  | cons x xs ih => simp [mapWithIndex, ih]

theorem get?_mapWithIndex (f : Nat → α → β) (s : Nat) (l : List α) (j : Nat) :
    (mapWithIndex f s l).get? j = (l.get? j).map (f (s + j)) := by
  induction l generalizing s j with
  | nil => simp [mapWithIndex]
  | cons x xs ih =>
    cases j with
    | zero => simp [mapWithIndex]
    | succ j =>
      have h1 : s + 1 + j = s + (j + 1) := by omega
      simp only [mapWithIndex, List.get?_cons_succ]
      rw [ih (s + 1) j, h1]

theorem scanCertificates_congr (env1 env2 : Env) (now : Int)
    (h : env1.manageCerts = env2.manageCerts) :
    scanCertificates env1 now = scanCertificates env2 now := by
  unfold scanCertificates
  rw [h]

theorem length_scanCertificates (env : Env) (l : List RawCert) (now : Int)
    (hl : env.manageCerts = some l) :
    (scanCertificates env now).length = l.length := by
  unfold scanCertificates
  rw [hl, length_mapWithIndex]

theorem updateCertificate_acmeAccountKey (env : Env) (now : Int) (id : Nat)
    (u : CertUpdates) : (updateCertificate env now id u).acmeAccountKey = env.acmeAccountKey := by
  unfold updateCertificate
  by_cases h : id < (scanCertificates env now).length <;> simp [h]

theorem updateCertificate_email (env : Env) (now : Int) (id : Nat)
    (u : CertUpdates) : (updateCertificate env now id u).email = env.email := by
  unfold updateCertificate
  by_cases h : id < (scanCertificates env now).length <;> simp [h]

theorem updateCertificate_qCerts (env : Env) (now : Int) (id : Nat)
    (u : CertUpdates) : (updateCertificate env now id u).qCerts = env.qCerts := by
  unfold updateCertificate
  by_cases h : id < (scanCertificates env now).length <;> simp [h]

theorem updateCertificate_history (env : Env) (now : Int) (id : Nat)
    (u : CertUpdates) : (updateCertificate env now id u).history = env.history := by
  unfold updateCertificate
  by_cases h : id < (scanCertificates env now).length <;> simp [h]

theorem recordRenewal_manageCerts (env : Env) (domain status : String)
    (error : Option String) (oldE newE : Option Int) (now : Int) (rid : String) :
    (recordRenewal env domain status error oldE newE now rid).manageCerts = env.manageCerts := rfl

theorem recordRenewal_acmeAccountKey (env : Env) (domain status : String)
    (error : Option String) (oldE newE : Option Int) (now : Int) (rid : String) :
    (recordRenewal env domain status error oldE newE now rid).acmeAccountKey
      = env.acmeAccountKey := rfl

theorem recordRenewal_email (env : Env) (domain status : String)
    (error : Option String) (oldE newE : Option Int) (now : Int) (rid : String) :
    (recordRenewal env domain status error oldE newE now rid).email = env.email := rfl

theorem recordRenewal_qCerts (env : Env) (domain status : String)
    (error : Option String) (oldE newE : Option Int) (now : Int) (rid : String) :
    (recordRenewal env domain status error oldE newE now rid).qCerts = env.qCerts := rfl

theorem saveAutoRenewalConfig_manageCerts (env : Env) (c : AutoRenewalConfig) :
    ((saveAutoRenewalConfig env c).1).manageCerts = env.manageCerts := by
  unfold saveAutoRenewalConfig
  split <;> rfl

theorem saveAutoRenewalConfig_history (env : Env) (c : AutoRenewalConfig) :
    ((saveAutoRenewalConfig env c).1).history = env.history := by
  unfold saveAutoRenewalConfig
  split <;> rfl

theorem updateLastCheck_manageCerts (env : Env) (domain : String) (now : Int) :
    (updateLastCheck env domain now).manageCerts = env.manageCerts := by
  unfold updateLastCheck
  exact saveAutoRenewalConfig_manageCerts env _

theorem updateLastCheck_history (env : Env) (domain : String) (now : Int) :
    (updateLastCheck env domain now).history = env.history := by
  unfold updateLastCheck
  exact saveAutoRenewalConfig_history env _

/-- The shape of the written collection after a valid update. -/
theorem updateCertificate_manageCerts_of_lt (env : Env) (l : List RawCert)
    (now : Int) (i : Nat) (u : CertUpdates)
    (hl : env.manageCerts = some l) (hi : i < l.length) :
    (updateCertificate env now i u).manageCerts
      = some (mapWithIndex
          (fun j c => if j = i then (mergeUpdate c u).toRaw u.extra else c.toRaw [])
          0 (scanCertificates env now)) := by
  unfold updateCertificate
  rw [if_pos]
  rw [length_scanCertificates env l now hl]
  exact hi

/-- After a valid update the collection keeps its length. -/
theorem updateCertificate_length (env : Env) (l : List RawCert) (now : Int)
    (i : Nat) (u : CertUpdates) (hl : env.manageCerts = some l) (hi : i < l.length) :
    ∃ l2, (updateCertificate env now i u).manageCerts = some l2 ∧ l2.length = l.length := by
  refine ⟨_, updateCertificate_manageCerts_of_lt env l now i u hl hi, ?_⟩
  rw [length_mapWithIndex, length_scanCertificates env l now hl]

/-- A valid update with a non-empty renewalStatus field makes the record at
the updated index scan back with exactly that status. -/
theorem scan_after_update_renewalStatus (env : Env) (l : List RawCert)
    (now now2 : Int) (i : Nat) (u : CertUpdates) (s : String)
    (hl : env.manageCerts = some l) (hi : i < l.length)
    (hs : u.renewalStatus = some s) (hs' : s ≠ "") :
    ∃ rec, (scanCertificates (updateCertificate env now i u) now2).get? i = some rec
      ∧ rec.renewalStatus = s := by
  obtain ⟨c, hc⟩ : ∃ c, l.get? i = some c := by
    cases h : l.get? i with
    | none => exact absurd (List.get?_eq_none.mp h) (Nat.not_le.mpr hi)
    | some c => exact ⟨c, rfl⟩
  unfold scanCertificates
  rw [updateCertificate_manageCerts_of_lt env l now i u hl hi]
  rw [get?_mapWithIndex, get?_mapWithIndex]
  unfold scanCertificates
  rw [hl, get?_mapWithIndex, hc]
  refine ⟨_, rfl, ?_⟩
  simp only [Nat.zero_add, if_pos rfl]
  simp [normalizeCert, ScanCert.toRaw, mergeUpdate, hs, strOr, hs']

/-- Math.ceil of an integer quotient with a positive divisor equals the
rational ceiling. -/
theorem jsCeilDiv_eq_ceil (a b : Int) (hb : 0 < b) :
    jsCeilDiv a b = ⌈(a : ℚ) / (b : ℚ)⌉ := by
  have hb0 : b ≠ 0 := ne_of_gt hb
  have hbq : (0 : ℚ) < (b : ℚ) := by exact_mod_cast hb
  have hdm : b * ((-a) / b) + (-a) % b = -a := Int.ediv_add_emod (-a) b
  have hr0 : 0 ≤ (-a) % b := Int.emod_nonneg (-a) hb0
  have hrb : (-a) % b < b := Int.emod_lt_of_pos (-a) hb
  have haz : a = -(b * ((-a) / b)) - (-a) % b := by linarith
  have haQ : (a : ℚ) = -((b : ℚ) * (((-a) / b : Int) : ℚ)) - (((-a) % b : Int) : ℚ) := by
    exact_mod_cast congrArg (fun z : Int => (z : ℚ)) haz
  have hr0Q : (0 : ℚ) ≤ (((-a) % b : Int) : ℚ) := by exact_mod_cast hr0
  have hrbQ : (((-a) % b : Int) : ℚ) < (b : ℚ) := by exact_mod_cast hrb
  symm
  rw [Int.ceil_eq_iff]
  unfold jsCeilDiv
  constructor
  · rw [lt_div_iff hbq]
    push_cast
    nlinarith [haQ, hrbQ]
  · rw [div_le_iff hbq]
    push_cast
    nlinarith [haQ, hr0Q]

/-- One recordRenewal call leaves at most MAX_RECORDS records and puts the
new record at the head. -/
theorem recordRenewal_len_head (env : Env) (domain status : String)
    (error : Option String) (oldE newE : Option Int) (now : Int) (rid : String) :
    (getHistory (recordRenewal env domain status error oldE newE now rid)).length ≤ MAX_RECORDS
    ∧ (getHistory (recordRenewal env domain status error oldE newE now rid)).head?
        = some { id := rid, domain := domain, timestamp := now, status := status
                 error := error, oldExpiry := oldE, newExpiry := newE } := by
  simp only [recordRenewal, getHistory, Option.getD_some]
  by_cases h :
      (({ id := rid, domain := domain, timestamp := now, status := status
          error := error, oldExpiry := oldE, newExpiry := newE : HistRecord })
        :: env.history.getD []).length > MAX_RECORDS
  · rw [if_pos h]
    constructor
    · rw [List.length_take]
      omega
    · rw [show MAX_RECORDS = 9 + 1 from rfl, List.take_succ_cons]
      rfl
  · rw [if_neg h]
    constructor
    · omega
    · rfl

/-- Boolean form of the validity of a record whose four checked fields are
truthy. -/
theorem validateCertificate_valid (certificate : ScanCert)
    (hd : certificate.domains ≠ "") (hc : certificate.cert ≠ "")
    (hk : certificate.key ≠ "") (ht : certificate.time.truthy = true) :
    validateCertificate certificate = { valid := true, errors := [] } := by
  unfold validateCertificate
  rw [if_neg, if_neg, if_neg, if_neg] <;> simp [hd, hc, hk, ht]

/-- The capability check passes when the account key and email are in
storage. -/
theorem checkRenewalCapability_ok (env : Env)
    (hA : strTruthy env.acmeAccountKey = true) (hE : strTruthy env.email = true) :
    (checkRenewalCapability env).canAutoRenew = true := by
  unfold checkRenewalCapability
  simp [hA, hE]

/-- Full evaluation of renewCertificate when the re-entrancy guard trips:
the inProgress outcome is returned, storage is untouched, finalization is
never reached, and the finally clause still clears the flag. -/
theorem renewCertificate_inProgress_eval (env : Env) (st : ClientState)
    (eng : AcmeEngine) (certificate : ScanCert) (now : Int)
    (hA : strTruthy env.acmeAccountKey = true) (hE : strTruthy env.email = true)
    (hd : certificate.domains ≠ "") (hc : certificate.cert ≠ "")
    (hk : certificate.key ≠ "") (ht : certificate.time.truthy = true)
    (hr : st.isRenewing = true) :
    renewCertificate env st eng certificate now =
      { result := { success := false, requiresManual := false
                    message := some "Renewal already in progress", inProgress := true }
        state := { isRenewing := false }, env := env, finalizeCalled := false } := by
  simp only [renewCertificate]
  rw [checkRenewalCapability_ok env hA hE,
      validateCertificate_valid certificate hd hc hk ht, hr]
  rfl

/-- Every path of renewCertificate ends with isRenewing cleared by the
finally clause. -/
theorem renewCertificate_state_false (env : Env) (st : ClientState)
    (eng : AcmeEngine) (certificate : ScanCert) (now : Int) :
    (renewCertificate env st eng certificate now).state = { isRenewing := false } := by
  unfold renewCertificate
  split
  · rfl
  · split
    · rfl
    · split
      · rfl
      · split
        · rfl
        · split <;> rfl

/-- An outcome returned (rather than thrown) by the inner try is never the
inProgress guard outcome. -/
theorem renewAttempt_ok_not_inProgress (env : Env) (eng : AcmeEngine)
    (certificate : ScanCert) (now : Int) (outcome : RenewalOutcome)
    (env' : Env) (fc : Bool)
    (h : renewAttempt env eng certificate now = (.ok outcome, env', fc)) :
    outcome.inProgress = false := by
  unfold renewAttempt at h
  repeat' split at h
  all_goals simp_all
  all_goals (obtain ⟨h1, h2, h3⟩ := h; subst h1; rfl)

/-- A call made while the flag is down never reports the inProgress
outcome. -/
theorem renewCertificate_not_inProgress (env : Env) (st : ClientState)
    (eng : AcmeEngine) (certificate : ScanCert) (now : Int)
    (hst : st.isRenewing = false) :
    (renewCertificate env st eng certificate now).result.inProgress = false := by
  unfold renewCertificate
  split
  · rfl
  · split
    · rfl
    · rw [if_neg (by rw [hst]; exact Bool.false_ne_true)]
      split
      · rename_i outcome env' fc heq
        exact renewAttempt_ok_not_inProgress env eng certificate now outcome env' fc heq
      · split <;> rfl

/-! ## Claim theorems -/

/-- C3: for every certificate record whose issuedAt parses to an instant t,
daysUntilExpiry equals the ceiling of (expiryDate - now) divided by one
day with expiryDate = t + 90 days, and the computed status is expired iff
daysUntilExpiry <= 0, otherwise needs_renewal iff daysUntilExpiry <=
threshold, otherwise valid. -/
theorem C3_days_ceiling_and_status (cert : ScanCert) (threshold now t : Int)
    (hpt : cert.time = .valid t) :
    getDaysUntilExpiry cert now
      = some ⌈((t + 90 * msPerDay - now : Int) : ℚ) / ((msPerDay : Int) : ℚ)⌉
    ∧ ∀ d, getDaysUntilExpiry cert now = some d →
        ((getCertificateStatus cert threshold now = "expired" ↔ d ≤ 0)
         ∧ (0 < d → (getCertificateStatus cert threshold now = "needs_renewal" ↔ d ≤ threshold))
         ∧ (0 < d → threshold < d → getCertificateStatus cert threshold now = "valid")) := by
  have hday : getDaysUntilExpiry cert now
      = some (jsCeilDiv (t + 90 * msPerDay - now) msPerDay) := by
    unfold getDaysUntilExpiry getExpiryDate
    rw [hpt]
    rfl
  constructor
  · rw [hday, jsCeilDiv_eq_ceil _ _ (by norm_num [msPerDay])]
  · intro d hd
    unfold getCertificateStatus
    rw [hd]
    dsimp only
    refine ⟨?_, ?_, ?_⟩
    · by_cases h0 : d ≤ 0
      · rw [if_pos h0]
        exact iff_of_true rfl h0
      · rw [if_neg h0]
        by_cases hth : d ≤ threshold
        · rw [if_pos hth]
          exact iff_of_false (by decide) h0
        · rw [if_neg hth]
          exact iff_of_false (by decide) h0
    · intro h0
      rw [if_neg (not_le.mpr h0)]
      by_cases hth : d ≤ threshold
      · rw [if_pos hth]
        exact iff_of_true rfl hth
      · rw [if_neg hth]
        exact iff_of_false (by decide) hth
    · intro h0 hth
      rw [if_neg (not_le.mpr h0), if_neg (not_le.mpr hth)]

/-- C3 witness: a certificate issued at epoch 0 checked 65 days later has
25 days left and status needs_renewal at threshold 30. -/
theorem C3_witness :
    getDaysUntilExpiry { certW with time := .valid 0 } (65 * msPerDay)
        = some ⌈(((0 : Int) + 90 * msPerDay - 65 * msPerDay : Int) : ℚ)
                  / ((msPerDay : Int) : ℚ)⌉
    ∧ getCertificateStatus { certW with time := .valid 0 } 30 (65 * msPerDay)
        = "needs_renewal" := by
  have h := C3_days_ceiling_and_status { certW with time := .valid 0 } 30
    (65 * msPerDay) 0 rfl
  refine ⟨h.1, ?_⟩
  have h2 := (h.2 25 (by decide)).2.1 (by decide)
  exact h2.mpr (by decide)

/-- C4 counterexample: a record whose time field is present but
unparseable is classified valid, not needs_renewal, so the claimed
treated-as-now needs_renewal classification fails on the code. -/
theorem C4_counterexample :
    getCertificateStatus certMal 30 0 = "valid"
    ∧ getCertificateStatus certMal 30 0 ≠ "needs_renewal" := by decide

/-- C4 amended: for every record whose issuedAt is present but not
parseable, the expiry computation does not crash: daysUntilExpiry is NaN,
both status comparisons are false, and the record is classified valid (so
it is never flagged for renewal). -/
theorem C4_amended_malformed_time_valid (cert : ScanCert) (threshold now : Int)
    (s : String) (h : cert.time = .malformed s) :
    getDaysUntilExpiry cert now = none
    ∧ getCertificateStatus cert threshold now = "valid" := by
  have hd : getDaysUntilExpiry cert now = none := by
    unfold getDaysUntilExpiry getExpiryDate
    rw [h]
    rfl
  refine ⟨hd, ?_⟩
  unfold getCertificateStatus
  rw [hd]

/-- C4 amended witness at the concrete malformed record. -/
theorem C4_amended_witness :
    getDaysUntilExpiry certMal 5 = none
    ∧ getCertificateStatus certMal 7 5 = "valid" :=
  C4_amended_malformed_time_valid certMal 7 5 "not-a-date" rfl

/-- C6: a renewCertificate call made while the isRenewing flag of the same
instance is already set returns the inProgress outcome and leaves the whole
storage (certificate stores and history alike) unchanged. -/
theorem C6_reentrant_call_inProgress_no_mutation (env : Env) (st : ClientState)
    (eng : AcmeEngine) (certificate : ScanCert) (now : Int)
    (hA : strTruthy env.acmeAccountKey = true) (hE : strTruthy env.email = true)
    (hd : certificate.domains ≠ "") (hc : certificate.cert ≠ "")
    (hk : certificate.key ≠ "") (ht : certificate.time.truthy = true)
    (hr : st.isRenewing = true) :
    (renewCertificate env st eng certificate now).result.inProgress = true
    ∧ (renewCertificate env st eng certificate now).result.success = false
    ∧ (renewCertificate env st eng certificate now).result.requiresManual = false
    ∧ (renewCertificate env st eng certificate now).env = env := by
  rw [renewCertificate_inProgress_eval env st eng certificate now hA hE hd hc hk ht hr]
  exact ⟨rfl, rfl, rfl, rfl⟩

/-- C6 witness at the concrete fixtures. -/
theorem C6_witness :
    (renewCertificate envW { isRenewing := true } engOK certW 99).result.inProgress = true
    ∧ (renewCertificate envW { isRenewing := true } engOK certW 99).env = envW := by
  have h := C6_reentrant_call_inProgress_no_mutation envW { isRenewing := true }
    engOK certW 99 (by decide) (by decide) (by decide) (by decide) (by decide)
    (by decide) rfl
  exact ⟨h.1, h.2.2.2⟩

/-- C7: after any sequence of recordRenewal calls with at least one call,
the history store holds at most MAX_RECORDS = 10 records globally, and
the record created by the most recent call sits at index 0. -/
theorem C7_history_bound_and_head (env : Env) (cs : List RecordCall) (c : RecordCall) :
    (getHistory ((cs ++ [c]).foldl recordStep env)).length ≤ MAX_RECORDS
    ∧ (getHistory ((cs ++ [c]).foldl recordStep env)).head? = some (mkHistRecord c) := by
  rw [List.foldl_append, List.foldl_cons, List.foldl_nil]
  exact recordRenewal_len_head _ _ _ _ _ _ _ _

/-- C8: the global enabled flag gates the per-domain eligibility check:
global false forces false regardless of per-domain settings; with global
true, an explicit per-domain enabled = false still yields false while the
absence of a per-domain entry yields true. -/
theorem C8_domain_eligibility (env : Env) (domain : String) :
    ((getAutoRenewalConfig env).enabled = false →
        isCertAutoRenewalEnabled env domain = false)
    ∧ ((getAutoRenewalConfig env).enabled = true →
        (∀ cs, lookupSetting (getAutoRenewalConfig env).certSettings domain = some cs →
            cs.enabled = some false → isCertAutoRenewalEnabled env domain = false)
        ∧ (lookupSetting (getAutoRenewalConfig env).certSettings domain = none →
            isCertAutoRenewalEnabled env domain = true)) := by
  refine ⟨?_, fun h => ⟨?_, ?_⟩⟩
  · intro h
    simp [isCertAutoRenewalEnabled, h]
  · intro cs hcs hen
    simp [isCertAutoRenewalEnabled, h, hcs, hen]
  · intro hnone
    simp [isCertAutoRenewalEnabled, h, hnone]

/-- C8 witness: with global enabled and one explicitly disabled domain,
that domain is ineligible while an unlisted domain is eligible; with the
default (absent) configuration the global flag is false and every domain is
ineligible. -/
theorem C8_witness :
    isCertAutoRenewalEnabled envC8 "off.example" = false
    ∧ isCertAutoRenewalEnabled envC8 "on.example" = true
    ∧ isCertAutoRenewalEnabled { } "off.example" = false := by
  refine ⟨?_, ?_, ?_⟩
  · exact ((C8_domain_eligibility envC8 "off.example").2 (by decide)).1
      { enabled := some false } (by decide) rfl
  · exact ((C8_domain_eligibility envC8 "on.example").2 (by decide)).2 (by decide)
  · exact (C8_domain_eligibility { } "off.example").1 (by decide)

/-- C10: whenever renewCertificate returns, including the re-entrant call
that reported inProgress, the finally clause has cleared the isRenewing
flag; consequently a subsequent call on the returned state can never be
blocked into the inProgress outcome. -/
theorem C10_finally_clears_flag (env : Env) (st : ClientState) (eng : AcmeEngine)
    (certificate : ScanCert) (now : Int) :
    (renewCertificate env st eng certificate now).state.isRenewing = false
    ∧ ∀ (env2 : Env) (eng2 : AcmeEngine) (cert2 : ScanCert) (now2 : Int),
        (renewCertificate env2 (renewCertificate env st eng certificate now).state
            eng2 cert2 now2).result.inProgress = false := by
  have hst := renewCertificate_state_false env st eng certificate now
  constructor
  · rw [hst]
  · intro env2 eng2 cert2 now2
    apply renewCertificate_not_inProgress
    rw [hst]

/-- C1: for a renewal attempt whose prerequisites hold and whose directory,
account and order steps succeed: when the authorization map reports valid
for every domain the orchestrator invokes the finalize step and (given the
finalize step, the download and the certificate store succeed as the
engine contract provides) returns a success outcome carrying a non-empty
certificate PEM; when at least one domain is not valid it returns a
manual_required outcome carrying the non-valid domains and a renewal URL
without ever invoking the finalize step. -/
theorem C1_authorization_cache_decision (env : Env) (st : ClientState)
    (eng : AcmeEngine) (certificate : ScanCert) (now : Int)
    (hA : strTruthy env.acmeAccountKey = true) (hE : strTruthy env.email = true)
    (hd : certificate.domains ≠ "") (hc : certificate.cert ≠ "")
    (hk : certificate.key ≠ "") (ht : certificate.time.truthy = true)
    (hfl : st.isRenewing = false)
    (hav : eng.acmeAvailable = true) (hx : eng.x509Available = true)
    (hkp1 : eng.accountKeyParse = .ok ()) (hkp2 : eng.certKeyParse = .ok ())
    (hdir : eng.directory = .ok ()) (hacc : eng.stepAccount = .ok ())
    (hord : eng.stepOrder = .ok ()) :
    ((∀ p ∈ eng.auths, p.2 = "valid") →
      eng.stepFinalize = .ok () →
      ∀ pem, eng.downloadPEM = some pem → pem ≠ "" →
      ∀ envOut, storeCertificate env certificate pem certificate.key now = .ok envOut →
        (renewCertificate env st eng certificate now).finalizeCalled = true
        ∧ (renewCertificate env st eng certificate now).result.success = true
        ∧ (renewCertificate env st eng certificate now).result.certificate
            = some { domains := certificate.domains, cert := pem
                     key := certificate.key, time := now }
        ∧ pem ≠ "")
    ∧ ((∃ p ∈ eng.auths, p.2 ≠ "valid") →
        (renewCertificate env st eng certificate now).finalizeCalled = false
        ∧ (renewCertificate env st eng certificate now).result.success = false
        ∧ (renewCertificate env st eng certificate now).result.requiresManual = true
        ∧ (renewCertificate env st eng certificate now).result.authorizationsNeeded
            = (eng.auths.filter (fun p => p.2 != "valid")).map Prod.fst
        ∧ (renewCertificate env st eng certificate now).result.renewalUrl
            = some (renewalUrlFor certificate)) := by
  have hcap : (checkRenewalCapability env).canAutoRenew = true :=
    checkRenewalCapability_ok env hA hE
  have hval : validateCertificate certificate = { valid := true, errors := [] } :=
    validateCertificate_valid certificate hd hc hk ht
  have hload : loadConfiguration env certificate eng = .ok
      { domains := (certificate.domains.splitOn ",").map (fun d => d.trim)
        privateKeyPem := certificate.key
        email := (env.email).getD ""
        acmeURL := strOr env.acmeURL "https://acme-v02.api.letsencrypt.org/directory" } := by
    unfold loadConfiguration
    rw [if_neg (by simp [hA]), if_neg (by simp [hE]), hkp1]
    dsimp only
    rw [if_pos (by simp [hk]), hkp2]
  constructor
  · intro hvd hfin pem hpem hne envOut hstore
    have hall : (checkAuthorizationStatus eng.auths).allValid = true := by
      unfold checkAuthorizationStatus
      dsimp only
      rw [List.all_eq_true]
      intro p hp
      simpa using hvd p hp
    have hps : strTruthy eng.downloadPEM = true := by
      rw [hpem]
      simp [strTruthy, hne]
    have hatt : renewAttempt env eng certificate now =
        (.ok { success := true, requiresManual := false
               message := some "Certificate renewed automatically using cached authorizations"
               certificate := some { domains := certificate.domains, cert := pem
                                     key := certificate.key, time := now } },
         envOut, true) := by
      unfold renewAttempt
      rw [if_neg (by simp [hav]), if_neg (by simp [hx]), hload]
      dsimp only
      rw [hdir]
      dsimp only
      rw [hacc]
      dsimp only
      rw [hord]
      dsimp only
      rw [if_neg (by simp [hall]), hfin]
      dsimp only
      rw [if_neg (by simp [hps]), hpem]
      dsimp only [Option.getD_some]
      rw [hstore]
    have hrc : renewCertificate env st eng certificate now =
        { result := { success := true, requiresManual := false
                      message := some "Certificate renewed automatically using cached authorizations"
                      certificate := some { domains := certificate.domains, cert := pem
                                            key := certificate.key, time := now } }
          state := { isRenewing := false }, env := envOut, finalizeCalled := true } := by
      unfold renewCertificate
      rw [if_neg (by simp [hcap]), if_neg (by simp [hval]),
          if_neg (by simp [hfl]), hatt]
    rw [hrc]
    exact ⟨rfl, rfl, rfl, hne⟩
  · intro hex
    obtain ⟨p0, hp0, hnv⟩ := hex
    have hnall : (checkAuthorizationStatus eng.auths).allValid = false := by
      unfold checkAuthorizationStatus
      dsimp only
      apply Bool.eq_false_iff.mpr
      intro hcontra
      rw [List.all_eq_true] at hcontra
      exact hnv (by simpa using hcontra p0 hp0)
    have hatt : renewAttempt env eng certificate now =
        (.ok { success := false
               requiresManual := true
               message := some "Authorization cache expired (>30 days since last validation). Manual domain verification required."
               authorizationsNeeded := (checkAuthorizationStatus eng.auths).pendingDomains
               renewalUrl := some (renewalUrlFor certificate)
               hint := some "Please complete domain verification through the web interface, or wait until within 30 days of last validation." },
         env, false) := by
      unfold renewAttempt
      rw [if_neg (by simp [hav]), if_neg (by simp [hx]), hload]
      dsimp only
      rw [hdir]
      dsimp only
      rw [hacc]
      dsimp only
      rw [hord]
      dsimp only
      rw [if_pos (by simp [hnall])]
    have hrc : renewCertificate env st eng certificate now =
        { result := { success := false
                      requiresManual := true
                      message := some "Authorization cache expired (>30 days since last validation). Manual domain verification required."
                      authorizationsNeeded := (checkAuthorizationStatus eng.auths).pendingDomains
                      renewalUrl := some (renewalUrlFor certificate)
                      hint := some "Please complete domain verification through the web interface, or wait until within 30 days of last validation." }
          state := { isRenewing := false }, env := env, finalizeCalled := false } := by
      unfold renewCertificate
      rw [if_neg (by simp [hcap]), if_neg (by simp [hval]),
          if_neg (by simp [hfl]), hatt]
    rw [hrc]
    exact ⟨rfl, rfl, rfl, rfl, rfl⟩

/-- C1 witness: on the concrete fixtures, the all-valid engine finalizes
and succeeds with the downloaded PEM, while the engine with one pending
authorization is sent to manual renewal without finalization. -/
theorem C1_witness :
    (renewCertificate envW { isRenewing := false } engOK certW 99).result.success = true
    ∧ (renewCertificate envW { isRenewing := false } engOK certW 99).finalizeCalled = true
    ∧ (renewCertificate envW { isRenewing := false } engPend certW 99).result.requiresManual = true
    ∧ (renewCertificate envW { isRenewing := false } engPend certW 99).finalizeCalled = false
    ∧ (renewCertificate envW { isRenewing := false } engPend certW 99).result.authorizationsNeeded
        = ["example.com"] := by
  have h1 := (C1_authorization_cache_decision envW { isRenewing := false } engOK certW 99
    (by decide) (by decide) (by decide) (by decide) (by decide) (by decide)
    rfl rfl rfl rfl rfl rfl rfl rfl).1
    (by decide) rfl "NEWPEM" rfl (by decide) _ rfl
  have h2 := (C1_authorization_cache_decision envW { isRenewing := false } engPend certW 99
    (by decide) (by decide) (by decide) (by decide) (by decide) (by decide)
    rfl rfl rfl rfl rfl rfl rfl rfl).2
    ⟨("example.com", "pending"), by decide, by decide⟩
  exact ⟨h1.2.1, h1.1, h2.2.2.1, h2.1, by rw [h2.2.2.2.1]; decide⟩

/-- C9: updateCertificate rewrites the entire persisted collection through
the fixed scanner schema: after a valid update every record in storage has
all schema fields present, and no record keeps any field outside the
schema except the fields the update object itself contributed to the
updated index, so non-schema fields written earlier (renewalUrl,
lastRenewalSuccess) are dropped by the next update. -/
theorem C9_update_rewrites_whole_collection (env : Env) (l : List RawCert)
    (now : Int) (i : Nat) (u : CertUpdates)
    (hl : env.manageCerts = some l) (hi : i < l.length) :
    ∃ l2, (updateCertificate env now i u).manageCerts = some l2
      ∧ l2.length = l.length
      ∧ ∀ j r, l2.get? j = some r →
          ((r.extra = if j = i then u.extra else [])
           ∧ r.id.isSome ∧ r.domains.isSome ∧ r.cert.isSome ∧ r.key.isSome
           ∧ r.time.isSome ∧ r.autoRenewal.isSome ∧ r.renewalStatus.isSome) := by
  refine ⟨_, updateCertificate_manageCerts_of_lt env l now i u hl hi, ?_, ?_⟩
  · rw [length_mapWithIndex]
    exact length_scanCertificates env l now hl
  · intro j r hr
    rw [get?_mapWithIndex] at hr
    cases hscan : (scanCertificates env now).get? j with
    | none =>
      rw [hscan] at hr
      simp at hr
    | some c =>
      rw [hscan] at hr
      simp only [Option.map_some, Nat.zero_add] at hr
      obtain rfl : (if j = i then (mergeUpdate c u).toRaw u.extra else c.toRaw []) = r :=
        Option.some.inj hr
      by_cases hji : j = i
      · simp [hji, ScanCert.toRaw]
      · simp [hji, ScanCert.toRaw]

/-- C9 witness: updating record 1 of a two-record store whose record 0
carries the non-schema fields renewalUrl and lastRenewalSuccess drops
those fields and writes every schema field out. -/
theorem C9_witness :
    ∃ l2, (updateCertificate envX 7 1 { renewalStatus := some "failure" }).manageCerts = some l2
      ∧ l2.length = [rawX, rawW].length
      ∧ ∀ j r, l2.get? j = some r →
          ((r.extra = if j = 1 then
              ({ renewalStatus := some "failure" : CertUpdates }).extra else [])
           ∧ r.id.isSome ∧ r.domains.isSome ∧ r.cert.isSome ∧ r.key.isSome
           ∧ r.time.isSome ∧ r.autoRenewal.isSome ∧ r.renewalStatus.isSome) :=
  C9_update_rewrites_whole_collection envX [rawX, rawW] 7 1
    { renewalStatus := some "failure" } rfl (by decide)

/-- C5 counterexample: with the re-entrant guard tripped (the client
instance already renewing), the attempt returns the inProgress outcome and
yet the scheduler mutates the store record to renewalStatus failure,
appends a terminal failure history record and sends a notification, so the
claimed no-mutation behaviour fails on the code. -/
theorem C5_counterexample :
    (executeRenewalJob wC5 engOK certW 99 "r1" "r2").result.inProgress = true
    ∧ (scanCertificates (executeRenewalJob wC5 engOK certW 99 "r1" "r2").world.env 99).map
        (fun c => c.renewalStatus) = ["failure"]
    ∧ (getHistory (executeRenewalJob wC5 engOK certW 99 "r1" "r2").world.env).map
        (fun r => (r.status, r.error))
        = [("failure", some "Unknown error occurred"), ("in_progress", none)]
    ∧ (executeRenewalJob wC5 engOK certW 99 "r1" "r2").world.notifications
        = [("example.com", "Unknown error occurred")] := by decide

/-- C5 amended: when the renewal attempt inside a scheduler job returns the
inProgress guard outcome, the scheduler does not move on silently: the
outcome falls into the failure branch, so the store record at the job index
is set to renewalStatus failure, a terminal failure history record with
error Unknown error occurred is appended at the head, and a failure
notification is sent. -/
theorem C5_amended_inProgress_failure_branch (w : World) (eng : AcmeEngine)
    (cert : ScanCert) (now : Int) (rid1 rid2 : String) (l : List RawCert)
    (hA : strTruthy w.env.acmeAccountKey = true) (hE : strTruthy w.env.email = true)
    (hd : cert.domains ≠ "") (hc : cert.cert ≠ "") (hk : cert.key ≠ "")
    (ht : cert.time.truthy = true) (hr : w.acme.isRenewing = true)
    (hl : w.env.manageCerts = some l) (hi : cert.id < l.length) :
    (executeRenewalJob w eng cert now rid1 rid2).result.inProgress = true
    ∧ (executeRenewalJob w eng cert now rid1 rid2).jobStatus = "failure"
    ∧ (∃ rec, (scanCertificates (executeRenewalJob w eng cert now rid1 rid2).world.env now).get?
          cert.id = some rec ∧ rec.renewalStatus = "failure")
    ∧ (getHistory (executeRenewalJob w eng cert now rid1 rid2).world.env).head?
        = some { id := rid2, domain := cert.domains, timestamp := now
                 status := "failure", error := some "Unknown error occurred"
                 oldExpiry := (getExpiryDate cert).toMs, newExpiry := none }
    ∧ (executeRenewalJob w eng cert now rid1 rid2).world.notifications
        = w.notifications ++ [(cert.domains, "Unknown error occurred")] := by
  have hA1 : strTruthy (jobStartEnv w cert now rid1).acmeAccountKey = true := by
    unfold jobStartEnv
    rw [recordRenewal_acmeAccountKey, updateCertificate_acmeAccountKey]
    exact hA
  have hE1 : strTruthy (jobStartEnv w cert now rid1).email = true := by
    unfold jobStartEnv
    rw [recordRenewal_email, updateCertificate_email]
    exact hE
  have hrun : renewCertificate (jobStartEnv w cert now rid1) w.acme eng cert now =
      { result := { success := false, requiresManual := false
                    message := some "Renewal already in progress", inProgress := true }
        state := { isRenewing := false }, env := jobStartEnv w cert now rid1
        finalizeCalled := false } :=
    renewCertificate_inProgress_eval _ _ _ _ _ hA1 hE1 hd hc hk ht hr
  have hfin : executeRenewalJob w eng cert now rid1 rid2 =
      { world :=
          { env := updateLastCheck
              (recordRenewal
                (updateCertificate (jobStartEnv w cert now rid1) now cert.id
                  { renewalStatus := some "failure" })
                cert.domains "failure" (some "Unknown error occurred")
                ((getExpiryDate cert).toMs) none now rid2)
              cert.domains now
            acme := { isRenewing := false }
            notifiedDomains := w.notifiedDomains
            notifications := w.notifications ++ [(cert.domains, "Unknown error occurred")] }
        jobStatus := "failure", jobError := some "Unknown error occurred"
        result := { success := false, requiresManual := false
                    message := some "Renewal already in progress", inProgress := true } } := by
    unfold executeRenewalJob
    rw [hrun]
    rfl
  rw [hfin]
  obtain ⟨l1, hl1, hlen1⟩ := updateCertificate_length w.env l now cert.id
    { renewalStatus := some "in_progress", lastRenewalAttempt := some now } hl hi
  have hE3 : (jobStartEnv w cert now rid1).manageCerts = some l1 := by
    unfold jobStartEnv
    rw [recordRenewal_manageCerts]
    exact hl1
  refine ⟨rfl, rfl, ?_, ?_, rfl⟩
  · have hcongr : scanCertificates
        (updateLastCheck
          (recordRenewal
            (updateCertificate (jobStartEnv w cert now rid1) now cert.id
              { renewalStatus := some "failure" })
            cert.domains "failure" (some "Unknown error occurred")
            ((getExpiryDate cert).toMs) none now rid2)
          cert.domains now) now
        = scanCertificates
            (updateCertificate (jobStartEnv w cert now rid1) now cert.id
              { renewalStatus := some "failure" }) now := by
      apply scanCertificates_congr
      rw [updateLastCheck_manageCerts, recordRenewal_manageCerts]
    rw [hcongr]
    exact scan_after_update_renewalStatus (jobStartEnv w cert now rid1) l1 now now
      cert.id { renewalStatus := some "failure" } "failure" hE3
      (by rw [hlen1]; exact hi) rfl (by decide)
  · have hh : getHistory
        (updateLastCheck
          (recordRenewal
            (updateCertificate (jobStartEnv w cert now rid1) now cert.id
              { renewalStatus := some "failure" })
            cert.domains "failure" (some "Unknown error occurred")
            ((getExpiryDate cert).toMs) none now rid2)
          cert.domains now)
        = getHistory
            (recordRenewal
              (updateCertificate (jobStartEnv w cert now rid1) now cert.id
                { renewalStatus := some "failure" })
              cert.domains "failure" (some "Unknown error occurred")
              ((getExpiryDate cert).toMs) none now rid2) := by
      unfold getHistory
      rw [updateLastCheck_history]
    rw [hh]
    exact (recordRenewal_len_head _ _ _ _ _ _ _ _).2

/-- C5 amended witness at the concrete fixtures. -/
theorem C5_amended_witness :
    (executeRenewalJob wC5 engOK certW 99 "r1" "r2").result.inProgress = true
    ∧ (executeRenewalJob wC5 engOK certW 99 "r1" "r2").jobStatus = "failure" := by
  have h := C5_amended_inProgress_failure_branch wC5 engOK certW 99 "r1" "r2" [rawW]
    (by decide) (by decide) (by decide) (by decide) (by decide) (by decide)
    rfl rfl (by decide)
  exact ⟨h.1, h.2.1⟩

/-- C2 evaluated at the failing input: a scheduler-driven renewal that ends
in a success outcome leaves the scanner store record with its old cert, key
and time and only renewalStatus success (plus the non-schema
lastRenewalSuccess field); the new PEM and refreshed time go to the
separate q-certs collection, which no other component of the application
reads or writes. -/
theorem C2_failing_input_eval :
    (executeRenewalJob wC2 engOK certW 99 "r1" "r2").result.success = true
    ∧ (executeRenewalJob wC2 engOK certW 99 "r1" "r2").jobStatus = "completed"
    ∧ (scanCertificates (executeRenewalJob wC2 engOK certW 99 "r1" "r2").world.env 99).map
        (fun c => (c.cert, c.key, c.time, c.renewalStatus))
        = [("OLDPEM", "OLDKEY", TimeVal.valid 1000, "success")]
    ∧ (executeRenewalJob wC2 engOK certW 99 "r1" "r2").world.env.qCerts
        = some [{ domains := "example.com", cert := "NEWPEM", key := "OLDKEY"
                  time := .valid 99, renewalStatus := some "success"
                  lastRenewalSuccess := some 99, autoRenewed := some true }] := by decide

end Certple
